import Mathlib

/-!
Shallow embedding of the limbo SQL-engine simulator core
(`simulator/main.rs`) and proofs about its workload generators,
fault-injecting file wrapper and row-collection loop.

Randomness model: the Rust code consumes a ChaCha8 RNG through
`gen_range`, `gen_bool` and `gen_ratio`.  We model the RNG as three
read-only tapes (naturals, rationals, names) plus a position; each
primitive draw consumes one position.  `gen_range(lo..hi)` over
integers is modelled as `lo + d % (hi - lo)` for the next tape value
`d`; `gen_bool(p)` with `p = num/den` as `d % den < num`; the
float draws use the rational tape through its fractional part, so a
draw is uniform-in-`[lo, hi)`-shaped: it can hit `lo` exactly and
never hits `hi`.  Rust panics (`unreachable!`, `todo!`, empty
`gen_range`, slice index, arithmetic overflow in debug builds,
`unwrap` on `Err`) are modelled as `none`.
-/

set_option maxRecDepth 4000

structure Rng where
  tape : Nat → Nat
  qTape : Nat → ℚ
  nameTape : Nat → String
  pos : Nat

def Rng.next (r : Rng) : Nat × Rng :=
  (r.tape r.pos, ⟨r.tape, r.qTape, r.nameTape, r.pos + 1⟩)

def Rng.nextQ (r : Rng) : ℚ × Rng :=
  (r.qTape r.pos, ⟨r.tape, r.qTape, r.nameTape, r.pos + 1⟩)

def Rng.nextName (r : Rng) : String × Rng :=
  (r.nameTape r.pos, ⟨r.tape, r.qTape, r.nameTape, r.pos + 1⟩)

/-- A tape holding the given naturals (then zeros); rational and name
tapes are constant.  Used for concrete evaluations. -/
def tapeOf (l : List Nat) : Rng :=
  ⟨fun i => l.getD i 0, fun _ => 0, fun _ => "x", 0⟩

/-- A tape that answers `d` to every natural draw. -/
def constRng (d : Nat) : Rng :=
  ⟨fun _ => d, fun _ => 0, fun _ => "x", 0⟩

/-- `rng.gen_range(0..n)` for `n > 0`: uniform in `[0, n)`. -/
def genNat (n : Nat) (r : Rng) : Nat × Rng :=
  let p := r.next
  (p.1 % n, p.2)

/-- `rng.gen_bool(num/den)` (also `gen_ratio(num, den)`): true on
`num` of the `den` equally likely residues. -/
def genBool (num den : Nat) (r : Rng) : Bool × Rng :=
  let p := r.next
  (decide (p.1 % den < num), p.2)

/-- `rng.gen_range(lo..hi)` over `i64`, `lo < hi`: uniform in `[lo, hi)`. -/
def genRangeI (lo hi : Int) (r : Rng) : Int × Rng :=
  let p := r.next
  (lo + ((p.1 % (hi - lo).toNat : Nat) : Int), p.2)

/-- `rng.gen_range(lo..hi)` over `f64` (modelled on ℚ), `lo < hi`:
the fractional part of the rational draw scales into `[lo, hi)`. -/
def genRangeQ (lo hi : ℚ) (r : Rng) : ℚ × Rng :=
  let p := r.nextQ
  (lo + (p.1 - (⌊p.1⌋ : ℚ)) * (hi - lo), p.2)

/-- `rng.gen_range(1..=3)`: uniform in `[1, 3]`. -/
def genRange1to3 (r : Rng) : Nat × Rng :=
  let p := r.next
  (1 + p.1 % 3, p.2)

def i64Min : Int := -(2 ^ 63)
def i64Max : Int := 2 ^ 63 - 1

/-- `ColumnType` (main.rs:88-93). -/
inductive ColumnType
  | Integer
  | Float
  | Text
  | Blob
deriving DecidableEq

/-- `Value` (main.rs:107-114); `f64` payloads are modelled as ℚ. -/
inductive Value
  | Null
  | Integer (i : Int)
  | Float (q : ℚ)
  | Text (s : String)
  | Blob (b : List Nat)
deriving DecidableEq

/-- UTF-8 encoding of one char, as `String::into_bytes` produces it. -/
def charUtf8Bytes (c : Char) : List Nat :=
  let n := c.toNat
  if n < 128 then [n]
  else if n < 2048 then [192 + n / 64, 128 + n % 64]
  else if n < 65536 then [224 + n / 4096, 128 + (n / 64) % 64, 128 + n % 64]
  else [240 + n / 262144, 128 + (n / 4096) % 64, 128 + (n / 64) % 64, 128 + n % 64]

/-- The UTF-8 bytes of a string (`String::into_bytes` / `.len()` view). -/
def strBytes (s : String) : List Nat :=
  s.toList.flatMap charUtf8Bytes

/-- `String::from_utf8`: RFC 3629 validation and decoding; `none`
models a `FromUtf8Error` (and hence a panic at an `unwrap`). -/
def utf8Decode : List Nat → Option (List Char)
  | [] => some []
  | b :: rest =>
    if b < 128 then
      match utf8Decode rest with
      | some cs => some (Char.ofNat b :: cs)
      | none => none
    else if b < 194 then none
    else if b ≤ 223 then
      match rest with
      | b2 :: rest2 =>
        if 128 ≤ b2 ∧ b2 ≤ 191 then
          match utf8Decode rest2 with
          | some cs => some (Char.ofNat ((b - 192) * 64 + (b2 - 128)) :: cs)
          | none => none
        else none
      | [] => none
    else if b ≤ 239 then
      match rest with
      | b2 :: b3 :: rest2 =>
        let lo2 := if b = 224 then 160 else 128
        let hi2 := if b = 237 then 159 else 191
        if lo2 ≤ b2 ∧ b2 ≤ hi2 ∧ 128 ≤ b3 ∧ b3 ≤ 191 then
          match utf8Decode rest2 with
          | some cs =>
            some (Char.ofNat ((b - 224) * 4096 + (b2 - 128) * 64 + (b3 - 128)) :: cs)
          | none => none
        else none
      | _ => none
    else if b ≤ 244 then
      match rest with
      | b2 :: b3 :: b4 :: rest2 =>
        let lo2 := if b = 240 then 144 else 128
        let hi2 := if b = 244 then 143 else 191
        if lo2 ≤ b2 ∧ b2 ≤ hi2 ∧ 128 ≤ b3 ∧ b3 ≤ 191 ∧ 128 ≤ b4 ∧ b4 ≤ 191 then
          match utf8Decode rest2 with
          | some cs =>
            some (Char.ofNat
              ((b - 240) * 262144 + (b2 - 128) * 4096 + (b3 - 128) * 64 + (b4 - 128)) :: cs)
          | none => none
        else none
      | _ => none
    else none

/-- One pass of the suffix-randomization loop, structurally recursive
on the number of remaining positions. -/
def randomizeAfterFuel : Nat → List Nat → Nat → Rng → List Nat × Rng
  | 0, bs, _, r => (bs, r)
  | fuel + 1, bs, j, r =>
    if j < bs.length then
      let p := r.next
      randomizeAfterFuel fuel (bs.set j (p.1 % 256)) (j + 1) p.2
    else (bs, r)

/-- `for i in (index+1)..t.len() { t[i] = rng.gen_range(0..=255); }`
(main.rs:168-170 and 210-212): each position from `j` up to the end of
the byte vector is overwritten with a fresh draw. -/
def randomizeAfter (bs : List Nat) (j : Nat) (r : Rng) : List Nat × Rng :=
  randomizeAfterFuel (bs.length - j) bs j r

/-- Text branch of `LTValue::arbitrary_of` (main.rs:157-173): with
probability 0.01 pop the last char, otherwise decrement the byte at a
random index, randomize the following bytes and re-validate with
`String::from_utf8(..).unwrap()`.  `none` models the panics (empty
text index draw, byte underflow in a debug build, invalid UTF-8). -/
def ltText (s : String) (r : Rng) : Option Value × Rng :=
  let (small, r1) := genBool 1 100 r
  if small then
    (some (Value.Text (String.mk s.toList.dropLast)), r1)
  else
    let bs := strBytes s
    if bs.length = 0 then (none, r1)
    else
      let (i, r2) := genNat bs.length r1
      let b0 := bs.getD i 0
      if b0 = 0 then (none, r2)
      else
        let (bs2, r3) := randomizeAfter (bs.set i (b0 - 1)) (i + 1) r2
        match utf8Decode bs2 with
        | some cs => (some (Value.Text (String.mk cs)), r3)
        | none => (none, r3)

/-- Text branch of `GTValue::arbitrary_of` (main.rs:199-215): with
probability 0.01 push `rng.gen_range(0..=255) as u8 as char`,
otherwise increment a byte, randomize the rest and re-validate. -/
def gtText (s : String) (r : Rng) : Option Value × Rng :=
  let (small, r1) := genBool 1 100 r
  if small then
    let (d, r2) := r1.next
    (some (Value.Text (String.mk (s.toList ++ [Char.ofNat (d % 256)]))), r2)
  else
    let bs := strBytes s
    if bs.length = 0 then (none, r1)
    else
      let (i, r2) := genNat bs.length r1
      let b0 := bs.getD i 0
      if b0 = 255 then (none, r2)
      else
        let (bs2, r3) := randomizeAfter (bs.set i (b0 + 1)) (i + 1) r2
        match utf8Decode bs2 with
        | some cs => (some (Value.Text (String.mk cs)), r3)
        | none => (none, r3)

/-- `impl ArbitraryOf<Value> for LTValue` (main.rs:152-178).  The
source wraps the result in the newtype `LTValue` and immediately
projects it with `.0`; the wrapper is elided here. -/
def LTValue.arbitrary_of_value (v : Value) (r : Rng) : Option Value × Rng :=
  match v with
  | .Integer i =>
    if i64Min < i - 1 then
      let p := genRangeI i64Min (i - 1) r
      (some (.Integer p.1), p.2)
    else (none, r)
  | .Float q =>
    if -(10 ^ 10 : ℚ) < q - 1 then
      let p := genRangeQ (-(10 ^ 10 : ℚ)) (q - 1) r
      (some (.Float p.1), p.2)
    else (none, r)
  | .Text s => ltText s r
  | .Blob _ => (none, r)
  | .Null => (none, r)

/-- `impl ArbitraryOf<Value> for GTValue` (main.rs:194-220). -/
def GTValue.arbitrary_of_value (v : Value) (r : Rng) : Option Value × Rng :=
  match v with
  | .Integer i =>
    if i < i64Max then
      let p := genRangeI i i64Max r
      (some (.Integer p.1), p.2)
    else (none, r)
  | .Float q =>
    if q < (10 ^ 10 : ℚ) then
      let p := genRangeQ q (10 ^ 10 : ℚ) r
      (some (.Float p.1), p.2)
    else (none, r)
  | .Text s => gtText s r
  | .Blob _ => (none, r)
  | .Null => (none, r)

/-- `impl ArbitraryOf<Vec<&Value>> for LTValue` (main.rs:141-150):
empty input short-circuits to `Null` without touching the RNG. -/
def LTValue.arbitrary_of_values (vs : List Value) (r : Rng) : Option Value × Rng :=
  if vs.isEmpty then (some Value.Null, r)
  else
    let p := genNat vs.length r
    LTValue.arbitrary_of_value (vs.getD p.1 Value.Null) p.2

/-- `impl ArbitraryOf<Vec<&Value>> for GTValue` (main.rs:183-192). -/
def GTValue.arbitrary_of_values (vs : List Value) (r : Rng) : Option Value × Rng :=
  if vs.isEmpty then (some Value.Null, r)
  else
    let p := genNat vs.length r
    GTValue.arbitrary_of_value (vs.getD p.1 Value.Null) p.2

/-- `impl ArbitraryOf<Vec<&Value>> for Value` (main.rs:116-125). -/
def Value.arbitrary_of_values (vs : List Value) (r : Rng) : Value × Rng :=
  if vs.isEmpty then (Value.Null, r)
  else
    let p := genNat vs.length r
    (vs.getD p.1 Value.Null, p.2)

/-- `Column` (main.rs:66-72). -/
structure Column where
  name : String
  column_type : ColumnType
  primary : Bool
  unique : Bool
deriving DecidableEq

/-- `Table` (main.rs:48-52), the shadow copy of one table. -/
structure Table where
  rows : List (List Value)
  name : String
  columns : List Column

/-- Modelled from the spec: `readable_name_custom` comes from the
external crate `anarchist_readable_name_generator_lib` (not under
src/); it yields a readable identifier-safe name from the RNG.  One
tape position stands for its internal draws. -/
def readable_name_custom (r : Rng) : String × Rng := r.nextName

/-- `gen_random_name` (main.rs:620-623). -/
def gen_random_name (r : Rng) : String × Rng :=
  let (s, r1) := readable_name_custom r
  (s.replace "-" "_", r1)

/-- The big-text block `((i % 26) as u8 + b'A')` of `gen_random_text`
(main.rs:630-634). -/
def bigText (size : Nat) : String :=
  String.mk ((List.range size).map fun i => Char.ofNat (i % 26 + 65))

/-- `gen_random_text` (main.rs:625-639): with probability 1/1000 an
ASCII block of `gen_range(1024..2GiB)` bytes, otherwise a readable
name. -/
def gen_random_text (r : Rng) : String × Rng :=
  let (big, r1) := genBool 1 1000 r
  if big then
    let (d, r2) := r1.next
    (bigText (1024 + d % (2 * 1024 * 1024 * 1024 - 1024)), r2)
  else
    let (s, r2) := readable_name_custom r1
    (s.replace "-" "_", r2)

/-- `impl ArbitraryOf<ColumnType> for Value` (main.rs:127-136). -/
def Value.arbitrary_of_type (t : ColumnType) (r : Rng) : Value × Rng :=
  match t with
  | .Integer =>
    let p := genRangeI i64Min i64Max r
    (.Integer p.1, p.2)
  | .Float =>
    let p := genRangeQ (-(10 ^ 10 : ℚ)) (10 ^ 10 : ℚ) r
    (.Float p.1, p.2)
  | .Text =>
    let p := gen_random_text r
    (.Text p.1, p.2)
  | .Blob =>
    let p := gen_random_text r
    (.Blob (strBytes p.1), p.2)

/-- The `gen_range(0..4)` column-type draw (main.rs:96-104 and 645-651). -/
def columnTypeOfDraw (k : Nat) : ColumnType :=
  match k with
  | 0 => .Integer
  | 1 => .Float
  | 2 => .Text
  | _ => .Blob

/-- Loop body of `gen_columns` (main.rs:644-660): per column the type
draw happens before the name draw. -/
def gen_columns_loop : Nat → Rng → List Column × Rng
  | 0, r => ([], r)
  | n + 1, r =>
    let (k, r1) := genNat 4 r
    let (nm, r2) := gen_random_name r1
    let (rest, r3) := gen_columns_loop n r2
    (⟨nm, columnTypeOfDraw k, false, false⟩ :: rest, r3)

/-- `gen_columns` (main.rs:641-662): `gen_range(1..128)` columns. -/
def gen_columns (r : Rng) : List Column × Rng :=
  let (d, r1) := r.next
  gen_columns_loop (1 + d % 127) r1

/-- `impl Arbitrary for Table` (main.rs:54-64). -/
def Table.arbitrary (r : Rng) : Table × Rng :=
  let (nm, r1) := gen_random_name r
  let (cols, r2) := gen_columns r1
  (⟨[], nm, cols⟩, r2)

/-- `Predicate` (main.rs:223-229). -/
inductive Predicate
  | And (children : List Predicate)
  | Or (children : List Predicate)
  | Eq (column : String) (value : Value)
  | Gt (column : String) (value : Value)
  | Lt (column : String) (value : Value)

/-- `Query` (main.rs:231-236). -/
inductive Query
  | Create (table : Table)
  | Select (table : String) (guard : Predicate)
  | Insert (table : String) (values : List Value)
  | Delete (table : String) (guard : Predicate)

/-- `let column_values = t.rows.iter().map(|r| &r[column_index])`
(main.rs:273); `none` models the out-of-bounds panic. -/
def columnValues (t : Table) (ci : Nat) : Option (List Value) :=
  t.rows.mapM fun row => row.get? ci

/-- `impl ArbitraryOf<(&Table, bool)> for SimplePredicate`
(main.rs:268-298).  The newtype wrapper is elided as in the source's
immediate `.0` projection. -/
def SimplePredicate.arbitrary_of (t : Table) (b : Bool) (r : Rng) :
    Option Predicate × Rng :=
  if t.columns.length = 0 then (none, r)
  else
    let pc := genNat t.columns.length r
    let col := t.columns.getD pc.1 ⟨"", .Integer, false, false⟩
    match columnValues t pc.1 with
    | none => (none, pc.2)
    | some vals =>
      let po := genNat 3 pc.2
      if po.1 = 0 then
        if b then
          let pv := Value.arbitrary_of_values vals po.2
          (some (.Eq col.name pv.1), pv.2)
        else
          let pv := Value.arbitrary_of_type col.column_type po.2
          (some (.Eq col.name pv.1), pv.2)
      else if po.1 = 1 then
        let pv :=
          if b then GTValue.arbitrary_of_values vals po.2
          else LTValue.arbitrary_of_values vals po.2
        (pv.1.map (.Gt col.name ·), pv.2)
      else
        let pv :=
          if b then LTValue.arbitrary_of_values vals po.2
          else GTValue.arbitrary_of_values vals po.2
        (pv.1.map (.Lt col.name ·), pv.2)

/-- `(0..rng.gen_range(1..=3)).map(|_| rng.gen_bool(0.5))`
(main.rs:316-318 and 339-341), the flips in program order. -/
def coinFlips : Nat → Rng → List Bool × Rng
  | 0, r => ([], r)
  | n + 1, r =>
    let pb := genBool 1 2 r
    let ps := coinFlips n pb.2
    (pb.1 :: ps.1, ps.2)

/-- Child truth values of the `And`/`want=false` branch
(main.rs:315-325): coin flips, then if all came up true force a
uniformly chosen one to false. -/
def andFalseFlags (r : Rng) : List Bool × Rng :=
  let pn := genRange1to3 r
  let pf := coinFlips pn.1 pn.2
  if pf.1.all (fun x => x) then
    let pj := genNat pf.1.length pf.2
    (pf.1.set pj.1 false, pj.2)
  else pf

/-- Child truth values of the `Or`/`want=true` branch
(main.rs:338-346): coin flips, then if all came up false force a
uniformly chosen one to true. -/
def orTrueFlags (r : Rng) : List Bool × Rng :=
  let pn := genRange1to3 r
  let pf := coinFlips pn.1 pn.2
  if pf.1.all (fun x => !x) then
    let pj := genNat pf.1.length pf.2
    (pf.1.set pj.1 true, pj.2)
  else pf

/-- `booleans.iter().map(|b| SimplePredicate::arbitrary_of(rng, &(*t, *b)).0).collect()`:
children built left to right; a panic (`none`) aborts the run. -/
def buildChildren (t : Table) : List Bool → Rng → Option (List Predicate) × Rng
  | [], r => (some [], r)
  | b :: bs, r =>
    match SimplePredicate.arbitrary_of t b r with
    | (none, r1) => (none, r1)
    | (some p, r1) =>
      match buildChildren t bs r1 with
      | (none, r2) => (none, r2)
      | (some ps, r2) => (some (p :: ps), r2)

/-- `impl ArbitraryOf<(&Table, bool)> for CompoundPredicate`
(main.rs:302-363). -/
def CompoundPredicate.arbitrary_of (t : Table) (b : Bool) (r : Rng) :
    Option Predicate × Rng :=
  let pc := genBool 7 10 r
  if pc.1 then
    if b then
      let pn := genRange1to3 pc.2
      let ps := buildChildren t (List.replicate pn.1 true) pn.2
      (ps.1.map Predicate.And, ps.2)
    else
      let pf := andFalseFlags pc.2
      let ps := buildChildren t pf.1 pf.2
      (ps.1.map Predicate.And, ps.2)
  else
    if b then
      let pf := orTrueFlags pc.2
      let ps := buildChildren t pf.1 pf.2
      (ps.1.map Predicate.Or, ps.2)
    else
      let pn := genRange1to3 pc.2
      let ps := buildChildren t (List.replicate pn.1 false) pn.2
      (ps.1.map Predicate.Or, ps.2)

/-- `impl ArbitraryOf<Table> for Predicate` (main.rs:365-370). -/
def Predicate.arbitrary_of (t : Table) (r : Rng) : Option Predicate × Rng :=
  let pb := genBool 1 2 r
  CompoundPredicate.arbitrary_of t pb.1 pb.2

/-- One value per column for `Query::Insert` (main.rs:250-254). -/
def valuesOfColumns : List Column → Rng → List Value × Rng
  | [], r => ([], r)
  | c :: cs, r =>
    let pv := Value.arbitrary_of_type c.column_type r
    let ps := valuesOfColumns cs pv.2
    (pv.1 :: ps.1, ps.2)

/-- `impl ArbitraryOf<Table> for Query` (main.rs:238-263):
`match rng.gen_range(0..=200)` with arms `0`, `1..=100`, `101..=200`,
`201..=300` and an `unreachable!()` default (`none`). -/
def Query.arbitrary_of (t : Table) (r : Rng) : Option Query × Rng :=
  let pd := r.next
  let k := pd.1 % 201
  if k = 0 then
    let pt := Table.arbitrary pd.2
    (some (.Create pt.1), pt.2)
  else if k ≤ 100 then
    let pg := Predicate.arbitrary_of t pd.2
    (pg.1.map (.Select t.name ·), pg.2)
  else if k ≤ 200 then
    let pv := valuesOfColumns t.columns pd.2
    (some (.Insert t.name pv.1), pv.2)
  else if k ≤ 300 then
    let pg := Predicate.arbitrary_of t pd.2
    (pg.1.map (.Delete t.name ·), pg.2)
  else (none, pd.2)

def Query.isDelete : Query → Bool
  | .Delete _ _ => true
  | _ => false

def optQueryIsDelete : Option Query → Bool
  | some q => q.isDelete
  | none => false

def valueIsI64Max : Value → Bool
  | .Integer x => decide (x = i64Max)
  | _ => false

def optValueIsI64Max : Option Value → Bool
  | some v => valueIsI64Max v
  | none => false

/-- `ColumnType::as_str` (main.rs:890-899). -/
def ColumnType.as_str : ColumnType → String
  | .Integer => "INTEGER"
  | .Float => "FLOAT"
  | .Text => "TEXT"
  | .Blob => "BLOB"

/-- `Table::to_create_str` (main.rs:901-917): the trailing comma is
removed by the `out.pop()`; `none` models the `assert!(!self.columns.is_empty())`. -/
def Table.to_create_str (t : Table) : Option String :=
  if t.columns.isEmpty then none
  else
    let base := "CREATE TABLE " ++ t.name ++ " ("
    let cols := t.columns.foldl
      (fun acc c => acc ++ c.name ++ " " ++ c.column_type.as_str ++ ",") ""
    some ((base ++ cols).dropRight 1 ++ ");")

/-- The DDL verification step of `maybe_add_table` (main.rs:606-614):
true exactly when every `assert!` passes, i.e. the schema query
returned one row whose first cell is text that *differs* from the
issued DDL (`assert!(*as_text != table.to_create_str())`). -/
def maybe_add_table_check (rows : List (List Value)) (issued : String) : Bool :=
  if rows.length = 1 then
    match (rows.getD 0 []).getD 0 Value.Null with
    | Value.Text t => decide (t ≠ issued)
    | _ => false
  else false

/-- The counter/fault state of `SimulatorFile` (main.rs:800-809);
the wrapped `inner` handle and `page_size` carry no claim-relevant
state.  Field order follows the source. -/
structure SimulatorFile where
  fault : Bool
  nr_pread_faults : Nat
  nr_pwrite_faults : Nat
  writes : Nat
  reads : Nat
  syncs : Nat
deriving DecidableEq

/-- The fresh wrapper built by `SimulatorIO::open_file`
(main.rs:766-775): fault clear, all counters zero. -/
def initFile : SimulatorFile := ⟨false, 0, 0, 0, 0, 0⟩

/-- `SimulatorFile::inject_fault` (main.rs:812-814). -/
def SimulatorFile.inject_fault (f : SimulatorFile) (b : Bool) : SimulatorFile :=
  { f with fault := b }

/-- `SimulatorFile::pread` (main.rs:847-856); `inner` is the result the
wrapped file would return when the call is delegated. -/
def SimulatorFile.pread (f : SimulatorFile) (inner : Except String Unit) :
    Except String Unit × SimulatorFile :=
  if f.fault then
    (Except.error "Injected fault", { f with nr_pread_faults := f.nr_pread_faults + 1 })
  else
    (inner, { f with reads := f.reads + 1 })

/-- `SimulatorFile::pwrite` (main.rs:858-872). -/
def SimulatorFile.pwrite (f : SimulatorFile) (inner : Except String Unit) :
    Except String Unit × SimulatorFile :=
  if f.fault then
    (Except.error "Injected fault", { f with nr_pwrite_faults := f.nr_pwrite_faults + 1 })
  else
    (inner, { f with writes := f.writes + 1 })

/-- `SimulatorFile::sync` (main.rs:874-877): always counts, never
injects. -/
def SimulatorFile.sync (f : SimulatorFile) (inner : Except String Unit) :
    Except String Unit × SimulatorFile :=
  (inner, { f with syncs := f.syncs + 1 })

/-- `SimulatorFile::lock_file` (main.rs:829-836). -/
def SimulatorFile.lock_file (f : SimulatorFile) (_exclusive : Bool)
    (inner : Except String Unit) : Except String Unit × SimulatorFile :=
  if f.fault then (Except.error "Injected fault", f) else (inner, f)

/-- `SimulatorFile::unlock_file` (main.rs:838-845). -/
def SimulatorFile.unlock_file (f : SimulatorFile) (inner : Except String Unit) :
    Except String Unit × SimulatorFile :=
  if f.fault then (Except.error "Injected fault", f) else (inner, f)

/-- One call against a `SimulatorFile`; each delegated call carries the
result the inner file would produce. -/
inductive FileOp
  | setFault (b : Bool)
  | pread (inner : Except String Unit)
  | pwrite (inner : Except String Unit)
  | sync (inner : Except String Unit)
  | lock (exclusive : Bool) (inner : Except String Unit)
  | unlock (inner : Except String Unit)

def applyOp (f : SimulatorFile) : FileOp → SimulatorFile
  | .setFault b => f.inject_fault b
  | .pread inner => (f.pread inner).2
  | .pwrite inner => (f.pwrite inner).2
  | .sync inner => (f.sync inner).2
  | .lock ex inner => (f.lock_file ex inner).2
  | .unlock inner => (f.unlock_file inner).2

def runOps : List FileOp → SimulatorFile → SimulatorFile
  | [], f => f
  | op :: rest, f => runOps rest (applyOp f op)

def countPreads (ops : List FileOp) : Nat :=
  ops.countP fun op => match op with | .pread _ => true | _ => false

def countPwrites (ops : List FileOp) : Nat :=
  ops.countP fun op => match op with | .pwrite _ => true | _ => false

/-- One outcome of the step protocol inside `get_all_rows`
(main.rs:684-713): a decoded row, an I/O wait whose `run_once` call
succeeds or fails, stream end, or an error from `next_row()` itself
(propagated by the `?`). -/
inductive StepEvent
  | row (vs : List Value)
  | ioStep (runOnceFails : Bool)
  | done
  | nextRowErr (msg : String)

/-- The `'rows_loop` of `get_all_rows` (main.rs:684-714) over a finite
trace of step outcomes (an exhausted trace is read as stream end). -/
def getAllRowsLoop : List StepEvent → List (List Value) →
    Except String (List (List Value))
  | [], out => Except.ok out
  | .row vs :: rest, out => getAllRowsLoop rest (out ++ [vs])
  | .ioStep fails :: rest, out =>
    if fails then Except.ok out else getAllRowsLoop rest out
  | .done :: _, out => Except.ok out
  | .nextRowErr m :: _, _ => Except.error m

def getAllRows (evs : List StepEvent) : Except String (List (List Value)) :=
  getAllRowsLoop evs []

/-- An event that neither ends nor aborts the loop: a decoded row or an
I/O wait whose `run_once` succeeded. -/
def StepEvent.quiet : StepEvent → Bool
  | .row _ => true
  | .ioStep fails => !fails
  | _ => false

def collectedRows (evs : List StepEvent) : List (List Value) :=
  evs.filterMap fun e => match e with | .row vs => some vs | _ => none

lemma genRangeI_bounds (lo hi : Int) (r : Rng) (h : lo < hi) :
    lo ≤ (genRangeI lo hi r).1 ∧ (genRangeI lo hi r).1 < hi := by
  have hpos : 0 < (hi - lo).toNat := by omega
  have hm := Nat.mod_lt (r.next.1) hpos
  have hcast : ((r.next.1 % (hi - lo).toNat : Nat) : Int) < (((hi - lo).toNat : Nat) : Int) := by
    exact_mod_cast hm
  unfold genRangeI
  dsimp only
  constructor <;> omega

/-- Claim C1: `maybe_add_table` is specified to issue a `CREATE TABLE`,
read the table's stored DDL back from `sqlite_schema`, and assert that
the single returned row's text **equals** the issued DDL, aborting on
mismatch.  The code instead asserts `*as_text != table.to_create_str()`
(main.rs:611-614), under the message "table was not inserted
correctly": on the failing input where the engine stores exactly the
issued DDL the verification aborts, and it passes precisely when the
stored text differs. -/
theorem c1_ddl_assert_inverted :
    Table.to_create_str ⟨[], "t", [⟨"a", ColumnType.Integer, false, false⟩]⟩ =
      some "CREATE TABLE t (a INTEGER);"
    ∧ maybe_add_table_check [[Value.Text "CREATE TABLE t (a INTEGER);"]]
        "CREATE TABLE t (a INTEGER);" = false
    ∧ maybe_add_table_check [[Value.Text "CREATE TABLE bogus (x BLOB);"]]
        "CREATE TABLE t (a INTEGER);" = true := by
  refine ⟨by decide, by decide, by decide⟩

/-- Claim C3: `strictly_greater` (`GTValue::arbitrary_of`) is claimed
to return a value strictly greater than its input, uniform in
`[i+1, i64::MAX]` for integers.  The code draws
`rng.gen_range(*i..i64::MAX)` (main.rs:197), i.e. uniform in
`[i, i64::MAX - 1]`: at the low draw it returns the input itself
(first conjunct, for `Integer 0`), and `i64::MAX` is never returned
(second conjunct, for `Integer 37` under every RNG). -/
theorem c3_gt_not_strict :
    (GTValue.arbitrary_of_value (Value.Integer 0) (tapeOf [0])).1 =
      some (Value.Integer 0)
    ∧ ∀ r : Rng,
        optValueIsI64Max (GTValue.arbitrary_of_value (Value.Integer 37) r).1 = false := by
  constructor
  · decide
  · intro r
    have h37 : (37 : Int) < i64Max := by decide
    have hb := (genRangeI_bounds 37 i64Max r h37).2
    simp only [GTValue.arbitrary_of_value, if_pos h37, optValueIsI64Max, valueIsI64Max,
      decide_eq_false_iff_not]
    omega

/-- Claim C4: `Query::arbitrary_of` is specified to draw over 301
equally likely buckets (Create 1, Select 100, Insert 100, Delete 100),
so that Delete appears with probability 100/301.  The code draws
`rng.gen_range(0..=200)` (main.rs:240), only 201 buckets, so its
`201..=300 => Query::Delete` arm is dead: every draw lands in
`[0, 200]` and no RNG can ever produce a Delete query. -/
theorem c4_delete_unreachable :
    (∀ d : Nat, d % 201 ≤ 200)
    ∧ ∀ (t : Table) (r : Rng),
        optQueryIsDelete (Query.arbitrary_of t r).1 = false := by
  constructor
  · intro d; omega
  · intro t r
    simp only [Query.arbitrary_of]
    have hk : r.next.1 % 201 ≤ 200 := by omega
    by_cases h0 : r.next.1 % 201 = 0
    · simp [h0, optQueryIsDelete, Query.isDelete]
    · by_cases h1 : r.next.1 % 201 ≤ 100
      · simp only [if_neg h0, if_pos h1]
        cases hg : (Predicate.arbitrary_of t r.next.2).1 <;>
          simp [hg, optQueryIsDelete, Query.isDelete]
      · by_cases h2 : r.next.1 % 201 ≤ 200
        · simp [if_neg h0, if_neg h1, if_pos h2, optQueryIsDelete, Query.isDelete]
        · omega

/-- No RNG tape makes the integer branch of `Value::arbitrary_of`
output `i64::MAX`. -/
def intGenNeverMax : Prop :=
  ∀ r : Rng, valueIsI64Max (Value.arbitrary_of_type ColumnType.Integer r).1 = false

/-- Claim C9 (counterexample): `Value::arbitrary_of` on
`ColumnType::Integer` is claimed to draw from the **full** `i64` range,
`i64::MAX` included.  The code draws
`rng.gen_range(i64::MIN..i64::MAX)` (main.rs:130), whose upper bound is
exclusive: under every RNG the result differs from `i64::MAX`, so
`i64::MAX` is not a possible output. -/
theorem c9_never_max_counterexample : intGenNeverMax := by
  intro r
  have h := (genRangeI_bounds i64Min i64Max r (by decide)).2
  simp only [Value.arbitrary_of_type, valueIsI64Max, decide_eq_false_iff_not]
  omega

/-- Claim C9 (amended): the integer branch of `Value::arbitrary_of`
draws uniformly from `[i64::MIN, i64::MAX - 1]`: every result lies in
that interval, every value of that interval is attained by some RNG,
and `i64::MAX` is never produced. -/
theorem c9_int_domain_amended :
    (∀ r : Rng, ∃ x : Int,
        (Value.arbitrary_of_type ColumnType.Integer r).1 = Value.Integer x
        ∧ i64Min ≤ x ∧ x < i64Max)
    ∧ ∀ v : Int, i64Min ≤ v → v < i64Max →
        ∃ r : Rng, (Value.arbitrary_of_type ColumnType.Integer r).1 = Value.Integer v := by
  constructor
  · intro r
    have h := genRangeI_bounds i64Min i64Max r (by decide)
    exact ⟨(genRangeI i64Min i64Max r).1, rfl, h.1, h.2⟩
  · intro v h1 h2
    refine ⟨tapeOf [(v - i64Min).toNat], ?_⟩
    simp only [Value.arbitrary_of_type, genRangeI, Rng.next, tapeOf, List.getD]
    have hlt : (v - i64Min).toNat < (i64Max - i64Min).toNat := by omega
    rw [show (([(v - i64Min).toNat].get? 0).getD 0) = (v - i64Min).toNat from rfl]
    rw [Nat.mod_eq_of_lt hlt]
    congr 1
    omega

/-- Witness for the amended C9 theorem: the value 5 is attained. -/
theorem c9_int_domain_amended_witness :
    ∃ r : Rng, (Value.arbitrary_of_type ColumnType.Integer r).1 = Value.Integer 5 :=
  c9_int_domain_amended.2 5 (by decide) (by decide)

/-- Claim C5 (counterexample): the text branches of `strictly_less` /
`strictly_greater` are claimed to always return valid UTF-8, re-rolling
any invalid mutation.  For `Text "ab"` with the mutation branch chosen,
index 0 and the random suffix byte 255, the mutated bytes `[96, 255]`
are not valid UTF-8 and `String::from_utf8(t).unwrap()` (main.rs:171)
panics: there is no re-roll. -/
theorem c5_text_panic_counterexample :
    (LTValue.arbitrary_of_value (Value.Text "ab") (tapeOf [1, 0, 255])).1 = none := by
  decide

/-- Claim C5 (amended): the text branches attempt the byte mutation
once; when the mutated bytes are valid UTF-8 the decoded string is
returned, and when they are not, `String::from_utf8(..).unwrap()`
panics — nothing is re-rolled.  Shown on `Text "ab"`: a valid LT
mutation (`"aa"`), a valid GT mutation (`"ac"`), and a GT mutation
whose byte 200 starts a truncated two-byte sequence and panics. -/
theorem c5_text_mutation_amended :
    (LTValue.arbitrary_of_value (Value.Text "ab") (tapeOf [1, 1, 0])).1
      = some (Value.Text "aa")
    ∧ (GTValue.arbitrary_of_value (Value.Text "ab") (tapeOf [1, 1, 0])).1
      = some (Value.Text "ac")
    ∧ (GTValue.arbitrary_of_value (Value.Text "ab") (tapeOf [1, 0, 200])).1 = none := by
  refine ⟨by decide, by decide, by decide⟩

lemma coinFlips_length (n : Nat) (r : Rng) : ((coinFlips n r).1).length = n := by
  induction n generalizing r with
  | zero => rfl
  | succ n ih => simp [coinFlips, ih]

lemma mem_set_of_lt (bs : List Bool) (j : Nat) (x : Bool) (h : j < bs.length) :
    x ∈ bs.set j x := by
  induction bs generalizing j with
  | nil => simp at h
  | cons b tl ih =>
    cases j with
    | zero => simp [List.set]
    | succ j =>
      simp only [List.set, List.mem_cons]
      exact Or.inr (ih j (by simpa using h))

lemma false_mem_of_not_all (bs : List Bool) (h : bs.all (fun x => x) = false) :
    false ∈ bs := by
  induction bs with
  | nil => simp at h
  | cons b tl ih =>
    cases b with
    | false => exact List.mem_cons_self false tl
    | true =>
      simp only [List.all_cons, Bool.true_and] at h
      exact List.mem_cons_of_mem _ (ih h)

lemma true_mem_of_all_neg (bs : List Bool) (h : bs.all (fun x => !x) = false) :
    true ∈ bs := by
  induction bs with
  | nil => simp at h
  | cons b tl ih =>
    cases b with
    | true => exact List.mem_cons_self true tl
    | false =>
      simp only [List.all_cons, Bool.not_false, Bool.true_and] at h
      exact List.mem_cons_of_mem _ (ih h)

lemma andFalseFlags_spec (r : Rng) :
    1 ≤ (andFalseFlags r).1.length ∧ (andFalseFlags r).1.length ≤ 3
      ∧ false ∈ (andFalseFlags r).1 := by
  unfold andFalseFlags
  dsimp only
  have hn : 1 ≤ (genRange1to3 r).1 ∧ (genRange1to3 r).1 ≤ 3 := by
    unfold genRange1to3; dsimp only; omega
  have hlen := coinFlips_length (genRange1to3 r).1 (genRange1to3 r).2
  by_cases hall : (coinFlips (genRange1to3 r).1 (genRange1to3 r).2).1.all (fun x => x)
  · simp only [hall, if_true, List.length_set]
    have hpos : 0 < (coinFlips (genRange1to3 r).1 (genRange1to3 r).2).1.length := by omega
    have hj := Nat.mod_lt
      ((coinFlips (genRange1to3 r).1 (genRange1to3 r).2).2.next.1) hpos
    refine ⟨by omega, by omega, ?_⟩
    exact mem_set_of_lt _ _ _ (by simpa [genNat] using hj)
  · have hall2 : (coinFlips (genRange1to3 r).1 (genRange1to3 r).2).1.all (fun x => x) = false := by
      revert hall; cases (coinFlips (genRange1to3 r).1 (genRange1to3 r).2).1.all (fun x => x) <;> simp
    simp only [hall2, if_false, Bool.false_eq_true]
    exact ⟨by omega, by omega, false_mem_of_not_all _ hall2⟩

lemma orTrueFlags_spec (r : Rng) :
    1 ≤ (orTrueFlags r).1.length ∧ (orTrueFlags r).1.length ≤ 3
      ∧ true ∈ (orTrueFlags r).1 := by
  unfold orTrueFlags
  dsimp only
  have hn : 1 ≤ (genRange1to3 r).1 ∧ (genRange1to3 r).1 ≤ 3 := by
    unfold genRange1to3; dsimp only; omega
  have hlen := coinFlips_length (genRange1to3 r).1 (genRange1to3 r).2
  by_cases hall : (coinFlips (genRange1to3 r).1 (genRange1to3 r).2).1.all (fun x => !x)
  · simp only [hall, if_true, List.length_set]
    have hpos : 0 < (coinFlips (genRange1to3 r).1 (genRange1to3 r).2).1.length := by omega
    have hj := Nat.mod_lt
      ((coinFlips (genRange1to3 r).1 (genRange1to3 r).2).2.next.1) hpos
    refine ⟨by omega, by omega, ?_⟩
    exact mem_set_of_lt _ _ _ (by simpa [genNat] using hj)
  · have hall2 : (coinFlips (genRange1to3 r).1 (genRange1to3 r).2).1.all (fun x => !x) = false := by
      revert hall; cases (coinFlips (genRange1to3 r).1 (genRange1to3 r).2).1.all (fun x => !x) <;> simp
    simp only [hall2, if_false, Bool.false_eq_true]
    exact ⟨by omega, by omega, true_mem_of_all_neg _ hall2⟩

/-- Claim C2: `CompoundPredicate::arbitrary_of` chooses `And` with
probability 0.7 (7 of the 10 equally likely `gen_bool` residues, else
`Or`), draws the child count uniformly from `[1, 3]` (each count hit
by exactly one of the 3 residues); for `And`/`want=true` every child
truth value is `true` (`List.replicate _ true`), for `Or`/`want=false`
every one is `false`, for `And`/`want=false` the coin-flipped list has
at least one `false` forced in, for `Or`/`want=true` at least one
`true` — as the final structural equation over the flag generators
shows. -/
theorem c2_compound_predicate (t : Table) (b : Bool) (r : Rng) :
    ((Finset.range 10).filter fun d => (genBool 7 10 (constRng d)).1).card = 7
    ∧ (∀ d : Nat, 1 ≤ (genRange1to3 (constRng d)).1 ∧ (genRange1to3 (constRng d)).1 ≤ 3)
    ∧ (∀ k : Nat, 1 ≤ k → k ≤ 3 →
        ((Finset.range 3).filter fun d => (genRange1to3 (constRng d)).1 = k).card = 1)
    ∧ (1 ≤ (andFalseFlags r).1.length ∧ (andFalseFlags r).1.length ≤ 3
        ∧ false ∈ (andFalseFlags r).1)
    ∧ (1 ≤ (orTrueFlags r).1.length ∧ (orTrueFlags r).1.length ≤ 3
        ∧ true ∈ (orTrueFlags r).1)
    ∧ CompoundPredicate.arbitrary_of t b r =
        (let pc := genBool 7 10 r
         if pc.1 then
           if b then
             let pn := genRange1to3 pc.2
             let ps := buildChildren t (List.replicate pn.1 true) pn.2
             (ps.1.map Predicate.And, ps.2)
           else
             let pf := andFalseFlags pc.2
             let ps := buildChildren t pf.1 pf.2
             (ps.1.map Predicate.And, ps.2)
         else
           if b then
             let pf := orTrueFlags pc.2
             let ps := buildChildren t pf.1 pf.2
             (ps.1.map Predicate.Or, ps.2)
           else
             let pn := genRange1to3 pc.2
             let ps := buildChildren t (List.replicate pn.1 false) pn.2
             (ps.1.map Predicate.Or, ps.2)) := by
  refine ⟨by decide, ?_, ?_, andFalseFlags_spec r, orTrueFlags_spec r, rfl⟩
  · intro d
    unfold genRange1to3
    dsimp only
    omega
  · intro k h1 h3
    interval_cases k <;> decide

/-- Witness for the C2 theorem: the child count 2 is picked by exactly
one of the three `gen_range(1..=3)` residues. -/
theorem c2_compound_predicate_witness :
    ((Finset.range 3).filter fun d => (genRange1to3 (constRng d)).1 = 2).card = 1 :=
  (c2_compound_predicate ⟨[], "t", []⟩ true (constRng 0)).2.2.1 2 (by decide) (by decide)

lemma applyOp_pread_sum (f : SimulatorFile) (op : FileOp) :
    (applyOp f op).nr_pread_faults + (applyOp f op).reads
      = f.nr_pread_faults + f.reads
        + (if (match op with | .pread _ => true | _ => false) then 1 else 0) := by
  cases op <;>
    simp [applyOp, SimulatorFile.pread, SimulatorFile.pwrite, SimulatorFile.sync,
      SimulatorFile.lock_file, SimulatorFile.unlock_file, SimulatorFile.inject_fault] <;>
    by_cases hf : f.fault <;> simp [hf] <;> omega

lemma applyOp_pwrite_sum (f : SimulatorFile) (op : FileOp) :
    (applyOp f op).nr_pwrite_faults + (applyOp f op).writes
      = f.nr_pwrite_faults + f.writes
        + (if (match op with | .pwrite _ => true | _ => false) then 1 else 0) := by
  cases op <;>
    simp [applyOp, SimulatorFile.pread, SimulatorFile.pwrite, SimulatorFile.sync,
      SimulatorFile.lock_file, SimulatorFile.unlock_file, SimulatorFile.inject_fault] <;>
    by_cases hf : f.fault <;> simp [hf] <;> omega

lemma runOps_sums (ops : List FileOp) (f : SimulatorFile) :
    ((runOps ops f).nr_pread_faults + (runOps ops f).reads
      = f.nr_pread_faults + f.reads + countPreads ops)
    ∧ ((runOps ops f).nr_pwrite_faults + (runOps ops f).writes
      = f.nr_pwrite_faults + f.writes + countPwrites ops) := by
  induction ops generalizing f with
  | nil => simp [runOps, countPreads, countPwrites]
  | cons op rest ih =>
    have h := ih (applyOp f op)
    have hp := applyOp_pread_sum f op
    have hw := applyOp_pwrite_sum f op
    simp only [runOps, countPreads, countPwrites, List.countP_cons] at h ⊢
    constructor
    · rw [h.1]
      simp only [countPreads] at *
      omega
    · rw [h.2]
      simp only [countPwrites] at *
      omega

/-- Claim C6: `SimulatorFile::pread` / `pwrite` with the fault flag set
bump exactly the matching fault counter, return the "Injected fault"
internal error and leave the success counter and inner file untouched;
with the flag clear they bump the success counter and delegate; hence
over any sequence of calls, `nr_pread_faults + reads` equals the total
number of `pread` calls attempted, and likewise for writes. -/
theorem c6_fault_accounting :
    (∀ (inner : Except String Unit) (f : SimulatorFile), f.fault = true →
        f.pread inner = (Except.error "Injected fault",
          { f with nr_pread_faults := f.nr_pread_faults + 1 }))
    ∧ (∀ (inner : Except String Unit) (f : SimulatorFile), f.fault = false →
        f.pread inner = (inner, { f with reads := f.reads + 1 }))
    ∧ (∀ (inner : Except String Unit) (f : SimulatorFile), f.fault = true →
        f.pwrite inner = (Except.error "Injected fault",
          { f with nr_pwrite_faults := f.nr_pwrite_faults + 1 }))
    ∧ (∀ (inner : Except String Unit) (f : SimulatorFile), f.fault = false →
        f.pwrite inner = (inner, { f with writes := f.writes + 1 }))
    ∧ ∀ ops : List FileOp,
        (runOps ops initFile).nr_pread_faults + (runOps ops initFile).reads
          = countPreads ops
        ∧ (runOps ops initFile).nr_pwrite_faults + (runOps ops initFile).writes
          = countPwrites ops := by
  refine ⟨?_, ?_, ?_, ?_, ?_⟩
  · intro inner f h; simp [SimulatorFile.pread, h]
  · intro inner f h; simp [SimulatorFile.pread, h]
  · intro inner f h; simp [SimulatorFile.pwrite, h]
  · intro inner f h; simp [SimulatorFile.pwrite, h]
  · intro ops
    have h := runOps_sums ops initFile
    simpa [initFile] using h

/-- Witness for the C6 theorem: a faulted `pread` on a fresh wrapper
errors and bumps only `nr_pread_faults`. -/
theorem c6_fault_accounting_witness :
    SimulatorFile.pread ⟨true, 0, 0, 0, 0, 0⟩ (Except.ok ())
      = (Except.error "Injected fault", ⟨true, 1, 0, 0, 0, 0⟩) := by
  have h := c6_fault_accounting.1 (Except.ok ()) ⟨true, 0, 0, 0, 0, 0⟩ rfl
  simpa using h

lemma getAllRowsLoop_break (rest : List StepEvent) :
    ∀ (pre : List StepEvent) (out : List (List Value)),
      (∀ e ∈ pre, e.quiet = true) →
      getAllRowsLoop (pre ++ StepEvent.ioStep true :: rest) out
        = Except.ok (out ++ collectedRows pre) := by
  intro pre
  induction pre with
  | nil => intro out _; simp [getAllRowsLoop, collectedRows]
  | cons e tl ih =>
    intro out hq
    have he : e.quiet = true := hq e (by simp)
    have htl : ∀ x ∈ tl, x.quiet = true := fun x hx => hq x (List.mem_cons_of_mem _ hx)
    cases e with
    | row vs =>
      simp only [List.cons_append, getAllRowsLoop, List.append_eq]
      rw [ih (out ++ [vs]) htl]
      simp [collectedRows, List.append_assoc]
    | ioStep fails =>
      have hfalse : fails = false := by
        revert he; cases fails <;> simp [StepEvent.quiet]
      subst hfalse
      simp only [List.cons_append, getAllRowsLoop, if_neg (by simp : ¬(false = true))]
      simp [ih out htl, collectedRows]
    | done => simp [StepEvent.quiet] at he
    | nextRowErr m => simp [StepEvent.quiet] at he

/-- Claim C7: when `run_once` fails inside `get_all_rows`, the
`'rows_loop` breaks and the function returns `Ok` with the rows
collected so far: the injected-fault error is not propagated and
nothing is retried.  Stated for any prefix of quiet steps (decoded
rows and I/O waits whose `run_once` succeeded) followed by a failing
`run_once`, whatever the rest of the stream held. -/
theorem c7_run_once_error_truncates (pre rest : List StepEvent)
    (hq : ∀ e ∈ pre, e.quiet = true) :
    getAllRows (pre ++ StepEvent.ioStep true :: rest)
      = Except.ok (collectedRows pre) := by
  simpa [getAllRows] using getAllRowsLoop_break rest pre [] hq

/-- Witness for the C7 theorem: two decoded rows, one successful I/O
wait, then a failing `run_once`; the loop returns `Ok` with those two
rows even though a `done` event was still pending. -/
theorem c7_run_once_error_truncates_witness :
    getAllRows ([StepEvent.row [Value.Integer 1], StepEvent.ioStep false,
        StepEvent.row [Value.Null]] ++ StepEvent.ioStep true :: [StepEvent.done])
      = Except.ok (collectedRows [StepEvent.row [Value.Integer 1], StepEvent.ioStep false,
        StepEvent.row [Value.Null]]) :=
  c7_run_once_error_truncates _ _ (by decide)

/-- Claim C8 (counterexample): `lock_file` / `unlock_file` with the
fault flag set are claimed to bump "the appropriate fault counter".
On a wrapper whose counters are 3, 4, 5, 6, 7 they fail with the
injected-fault error yet return the state completely unchanged: no
counter of the `SimulatorFile` is bumped (there is no lock fault
counter; see main.rs:829-845 and the counter fields at 800-809). -/
theorem c8_lock_counters_untouched_counterexample :
    (⟨true, 3, 4, 5, 6, 7⟩ : SimulatorFile).fault = true
    ∧ SimulatorFile.lock_file ⟨true, 3, 4, 5, 6, 7⟩ false (Except.ok ())
        = (Except.error "Injected fault", ⟨true, 3, 4, 5, 6, 7⟩)
    ∧ SimulatorFile.unlock_file ⟨true, 3, 4, 5, 6, 7⟩ (Except.ok ())
        = (Except.error "Injected fault", ⟨true, 3, 4, 5, 6, 7⟩) :=
  ⟨rfl, rfl, rfl⟩

/-- Claim C8 (amended): `lock_file` and `unlock_file` never change the
wrapper's state; with the fault flag set they fail with the "Injected
fault" error (without bumping any counter), otherwise they delegate to
the inner file. -/
theorem c8_lock_unlock_amended (ex : Bool) (inner : Except String Unit)
    (f : SimulatorFile) :
    ((f.lock_file ex inner).2 = f ∧ (f.unlock_file inner).2 = f)
    ∧ (f.fault = true →
        (f.lock_file ex inner).1 = Except.error "Injected fault"
        ∧ (f.unlock_file inner).1 = Except.error "Injected fault")
    ∧ (f.fault = false →
        (f.lock_file ex inner).1 = inner ∧ (f.unlock_file inner).1 = inner) := by
  by_cases hf : f.fault <;>
    simp [SimulatorFile.lock_file, SimulatorFile.unlock_file, hf]

/-- Witness for the amended C8 theorem: a faulted lock and unlock both
fail with the injected-fault error. -/
theorem c8_lock_unlock_amended_witness :
    (SimulatorFile.lock_file ⟨true, 0, 0, 0, 0, 0⟩ true (Except.ok ())).1
        = Except.error "Injected fault"
    ∧ (SimulatorFile.unlock_file ⟨true, 0, 0, 0, 0, 0⟩ (Except.ok ())).1
        = Except.error "Injected fault" :=
  (c8_lock_unlock_amended true (Except.ok ()) ⟨true, 0, 0, 0, 0, 0⟩).2.1 rfl

/-- Claim C10: when the target table has no rows, the collected column
values are empty and both `LTValue::arbitrary_of` and
`GTValue::arbitrary_of` on the empty vector return `Value::Null`
without consuming randomness (first two conjuncts); consequently a
simple predicate whose operator draw selects `Gt` (residue 1) or `Lt`
(residue 2) compares the chosen column against `NULL`. -/
theorem c10_empty_table_null (t : Table) (r : Rng) (b : Bool)
    (hrows : t.rows = []) (hcols : ¬t.columns.length = 0) :
    LTValue.arbitrary_of_values [] r = (some Value.Null, r)
    ∧ GTValue.arbitrary_of_values [] r = (some Value.Null, r)
    ∧ ((genNat 3 (genNat t.columns.length r).2).1 = 1 →
        (SimplePredicate.arbitrary_of t b r).1
          = some (Predicate.Gt (t.columns.getD (genNat t.columns.length r).1
              ⟨"", ColumnType.Integer, false, false⟩).name Value.Null))
    ∧ ((genNat 3 (genNat t.columns.length r).2).1 = 2 →
        (SimplePredicate.arbitrary_of t b r).1
          = some (Predicate.Lt (t.columns.getD (genNat t.columns.length r).1
              ⟨"", ColumnType.Integer, false, false⟩).name Value.Null)) := by
  have hcv : columnValues t (genNat t.columns.length r).1 = some [] := by
    unfold columnValues
    rw [hrows]
    rfl
  refine ⟨rfl, rfl, ?_, ?_⟩
  · intro h
    simp only [SimplePredicate.arbitrary_of, if_neg hcols, hcv]
    simp only [h]
    cases b <;>
      simp [GTValue.arbitrary_of_values, LTValue.arbitrary_of_values]
  · intro h
    simp only [SimplePredicate.arbitrary_of, if_neg hcols, hcv]
    simp only [h]
    cases b <;>
      simp [GTValue.arbitrary_of_values, LTValue.arbitrary_of_values]

/-- Witness for the C10 theorem: on a rowless one-column table, the
tape drawing column 0 and operator residue 1 yields the predicate
`a > NULL`. -/
theorem c10_empty_table_null_witness :
    (SimplePredicate.arbitrary_of ⟨[], "t", [⟨"a", ColumnType.Integer, false, false⟩]⟩
        true (tapeOf [0, 1])).1 = some (Predicate.Gt "a" Value.Null) := by
  have h := (c10_empty_table_null
      ⟨[], "t", [⟨"a", ColumnType.Integer, false, false⟩]⟩ (tapeOf [0, 1]) true
      rfl (by decide)).2.2.1 (by decide)
  simpa using h
